import Mathlib

/-!
Verification of the tRPC/Nuxt demo repository against its specification.

The repository registers two procedures on a router (`hello`, a query, and
`teststream`, a subscription), builds a request context from the incoming
event, and wires a client whose transport is chosen per operation kind.
Pure parts are embedded directly from the source; the dispatch machinery
delegated to the RPC library is modelled from the specification, with
doc comments marking each such definition.
-/

/-- A JSON value, the payload type for procedure inputs and outputs. -/
inductive Json where
  | str (s : String)
  | num (n : Int)
  | boolean (b : Bool)
  | null
  | obj (fields : List (String × Json))
  | arr (elems : List Json)

/-- Field-level detail carried by a validation error: the path of the
offending field and a message, as produced by the zod validation library. -/
structure FieldIssue where
  path : List String
  message : String
  deriving DecidableEq, Repr

/-- First binding of a key in a JSON object's field list. -/
def lookupField : List (String × Json) → String → Option Json
  | [], _ => none
  | (k, v) :: rest, key => if k = key then some v else lookupField rest key

/-- Embeds the input rule `z.object({ <name>: z.string() })` used by the
routers in the source: the payload must be a JSON object whose field
`<name>` is present and a string; unknown keys are stripped (zod objects
strip unknown keys by default); a missing field reports a `Required` issue
at the field path, a wrong type reports an expected-string issue, and a
non-object payload reports an expected-object issue at the root. -/
def zObjStringField (name : String) : Json → Except (List FieldIssue) Json
  | Json.obj fields =>
    match lookupField fields name with
    | some (Json.str s) => Except.ok (Json.obj [(name, Json.str s)])
    | some _ => Except.error [⟨[name], "Expected string"⟩]
    | none => Except.error [⟨[name], "Required"⟩]
  | _ => Except.error [⟨[], "Expected object, received other"⟩]

/-- The input rule shared by `hello` and `teststream` in the source router:
`z.object({ text: z.string() })`. -/
def textInputRule : Json → Except (List FieldIssue) Json :=
  zObjStringField "text"

/-- Reads the `text` field of a validated input object. The default is never
reached after `textInputRule` succeeds (proved below). -/
def textOf : Json → String
  | Json.obj fields =>
    match lookupField fields "text" with
    | some (Json.str s) => s
    | _ => ""
  | _ => ""

/-- Reads the `id` field of a validated input object, in the same way. -/
def idOf : Json → String
  | Json.obj fields =>
    match lookupField fields "id" with
    | some (Json.str s) => s
    | _ => ""
  | _ => ""

/-- The request context built by `createTRPCContext` in `server/trpc/init`:
it has the single field `auth`. -/
structure Ctx where
  auth : Json

/-- Model of the incoming `H3Event`: the request metadata visible to the
server. `contextAuth` is `event.context.auth`; the remaining fields stand
for the rest of the request metadata, which the context factory ignores. -/
structure H3Event where
  contextAuth : Json
  url : String
  headers : List (String × String)

/-- Embeds `createTRPCContext` from `server/trpc/init`: it returns
an object with the single field `auth` copied from `event.context.auth`. -/
def createTRPCContext (event : H3Event) : Ctx :=
  { auth := event.contextAuth }

/-- A procedure definition: its kind together with its input rule and
handler. Query and mutation handlers produce one JSON value; subscription
handlers produce an ordered sequence of emitted values. -/
inductive ProcDef where
  | query (rule : Json → Except (List FieldIssue) Json) (handler : Ctx → Json → Json)
  | mutation (rule : Json → Except (List FieldIssue) Json) (handler : Ctx → Json → Json)
  | subscription (rule : Json → Except (List FieldIssue) Json)
      (handler : Ctx → Json → List Json)

/-- A router node: either a leaf procedure or a mapping from string keys to
child routers, allowing arbitrary nesting. -/
inductive RouterNode where
  | leaf (p : ProcDef)
  | node (children : List (String × RouterNode))

/-- First binding of a key among a node's children. -/
def lookupChild : List (String × RouterNode) → String → Option RouterNode
  | [], _ => none
  | (k, v) :: rest, key => if k = key then some v else lookupChild rest key

/-- Resolution of a segmented path: walk the nesting tree segment by
segment, failing on any missing segment; a path resolves only if it ends
exactly at a leaf. -/
def resolveSegs : RouterNode → List String → Option ProcDef
  | RouterNode.leaf p, [] => some p
  | RouterNode.leaf _, _ :: _ => none
  | RouterNode.node _, [] => none
  | RouterNode.node children, seg :: rest =>
    match lookupChild children seg with
    | some child => resolveSegs child rest
    | none => none

/-- Splits a character list at dots, accumulating the current segment in
reverse. -/
def splitSegsAux : List Char → List Char → List String
  | [], acc => [String.mk acc.reverse]
  | c :: rest, acc =>
    if c = '.' then String.mk acc.reverse :: splitSegsAux rest []
    else splitSegsAux rest (c :: acc)

/-- Splits a dotted path string into its segments, with the semantics of
the dot-separated path strings used on the wire: `user.getById` becomes
the two segments `user` and `getById`. -/
def splitPath (path : String) : List String :=
  splitSegsAux path.data []

/-- Resolution of a dotted path string against a router. -/
def resolvePath (r : RouterNode) (path : String) : Option ProcDef :=
  resolveSegs r (splitPath path)

/-- Embeds the `hello` procedure of the source router: a query whose input
rule is `z.object({ text: z.string() })` and whose handler returns
an object with field `greeting` set to the string `hello <text>`. -/
def helloProc : ProcDef :=
  ProcDef.query textInputRule
    (fun _ input => Json.obj [("greeting", Json.str ("hello " ++ textOf input))])

/-- Embeds the `teststream` procedure of the source router: a subscription
with the same input rule whose generator yields `hello <text> <i>` for
i = 0, 1, 2, 3, 4 and then completes. The pacing delay between emissions
has no effect on the emitted sequence and is not modelled. -/
def teststreamProc : ProcDef :=
  ProcDef.subscription textInputRule
    (fun _ input =>
      (List.range 5).map (fun i => Json.str ("hello " ++ textOf input ++ " " ++ toString i)))

/-- Embeds `appRouter` from the source: the router registering `hello` and
`teststream`. -/
def appRouter : RouterNode :=
  RouterNode.node
    [ ("hello", RouterNode.leaf helloProc),
      ("teststream", RouterNode.leaf teststreamProc) ]

/-- Embeds the `getById` procedure of the documented merged-router example
(`server/trpc/routers/user.ts` in the repository's documentation): a query
whose input rule is `z.object({ id: z.string() })` returning the looked-up
user object. -/
def getByIdProc : ProcDef :=
  ProcDef.query (zObjStringField "id")
    (fun _ input =>
      Json.obj
        [ ("id", Json.str (idOf input)),
          ("name", Json.str ("User " ++ idOf input)),
          ("email", Json.str ("user" ++ idOf input ++ "@example.com")) ])

/-- Embeds the merged router of the documented example, with the sub-router
key `user` exposing `getById`. Only the procedures the verified properties
touch are embedded. -/
def mergedRouter : RouterNode :=
  RouterNode.node
    [ ("user", RouterNode.node [("getById", RouterNode.leaf getByIdProc)]) ]

/-- The error taxonomy of the dispatch boundary. -/
inductive RpcError where
  | notFound
  | validationError (issues : List FieldIssue)
  | internal

/-- Outcome of dispatching one call: a single value for queries and
mutations, an ordered value sequence for subscriptions, or an error. -/
inductive RpcResult where
  | ok (value : Json)
  | stream (values : List Json)
  | err (e : RpcError)

/-- Modelled from the spec: the server-side dispatcher for one call.
It resolves the dotted path in the router registry, returning NOT_FOUND
when no segment-by-segment match exists; on a match it evaluates the
leaf's input rule against the payload, short-circuiting with a
VALIDATION_ERROR carrying the rule's field issues, and only on success
invokes the handler on the validated input. The second component records
whether a handler was invoked. -/
def dispatch (r : RouterNode) (ctx : Ctx) (path : String) (input : Json) :
    RpcResult × Bool :=
  match resolvePath r path with
  | none => (RpcResult.err RpcError.notFound, false)
  | some (ProcDef.query rule handler) =>
    match rule input with
    | Except.error issues => (RpcResult.err (RpcError.validationError issues), false)
    | Except.ok parsed => (RpcResult.ok (handler ctx parsed), true)
  | some (ProcDef.mutation rule handler) =>
    match rule input with
    | Except.error issues => (RpcResult.err (RpcError.validationError issues), false)
    | Except.ok parsed => (RpcResult.ok (handler ctx parsed), true)
  | some (ProcDef.subscription rule handler) =>
    match rule input with
    | Except.error issues => (RpcResult.err (RpcError.validationError issues), false)
    | Except.ok parsed => (RpcResult.stream (handler ctx parsed), true)

/-- The operation kinds a client call can have. -/
inductive OpType where
  | query
  | mutation
  | subscription
  deriving DecidableEq

/-- A client-side operation: its declared kind plus the other attributes an
operation carries (path, input payload, request id). -/
structure Operation where
  type : OpType
  path : String
  input : Json
  id : Nat

/-- The two transport strategies configured in `plugins/trpc.ts`. -/
inductive Transport where
  | streaming
  | batched
  deriving DecidableEq

/-- Embeds the condition of the splitLink in `plugins/trpc.ts`:
`(op) => op.type === 'subscription'`. -/
def splitLinkCondition (op : Operation) : Bool :=
  op.type = OpType.subscription

/-- Embeds the splitLink of `plugins/trpc.ts`: when the condition holds the
httpSubscriptionLink (streaming) is used, otherwise the httpBatchLink
(batched). -/
def selectTransport (op : Operation) : Transport :=
  if splitLinkCondition op then Transport.streaming else Transport.batched

/-- One call of a batch: a dotted path and an input payload. -/
structure Call where
  path : String
  input : Json

/-- The result a call would produce if issued alone. -/
def soloResult (r : RouterNode) (ctx : Ctx) (c : Call) : RpcResult :=
  (dispatch r ctx c.path c.input).1

/-- Modelled from the spec: within one batch the calls execute
concurrently; `order` lists the input positions in the order the handlers
happen to complete, and each completion tags its result with its input
position. -/
def completions (r : RouterNode) (ctx : Ctx) (calls : List Call) (order : List Nat) :
    List (Nat × RpcResult) :=
  order.map (fun i => (i, soloResult r ctx (calls.getD i ⟨"", Json.null⟩)))

/-- Modelled from the spec: the batch response reassembles the tagged
completions into input order, one positionally aligned entry per call. -/
def batchDispatch (r : RouterNode) (ctx : Ctx) (calls : List Call) (order : List Nat) :
    List RpcResult :=
  (List.range calls.length).map
    (fun i => ((completions r ctx calls order).lookup i).getD (RpcResult.err RpcError.internal))

/-- State of one subscription stream: the values the producer has not yet
emitted, the values delivered to the client in order, and whether the
stream is closed (producer terminated and its resources released). -/
structure SubState where
  pending : List Json
  delivered : List Json
  closed : Bool

/-- Events acting on a subscription stream: delivery of the next produced
value, or client-initiated cancellation. -/
inductive SubEvent where
  | deliver
  | cancel

/-- Modelled from the spec: one step of the subscription transport. A
cancel tears the stream down: the producer is stopped, its remaining
values are discarded and its resources released (the state is closed).
A deliver on a live stream pushes the next produced value to the client,
closing the stream when the producer's sequence is exhausted; on a closed
stream it delivers nothing. -/
def subStep (s : SubState) : SubEvent → SubState
  | SubEvent.cancel => { s with pending := [], closed := true }
  | SubEvent.deliver =>
    if s.closed then s
    else
      match s.pending with
      | [] => { s with closed := true }
      | v :: rest => { pending := rest, delivered := s.delivered ++ [v], closed := false }

/-- Runs a sequence of subscription events from a state. -/
def runSub (s : SubState) (events : List SubEvent) : SubState :=
  events.foldl subStep s

/-- Initial stream state for a producer that would emit `vals` in order. -/
def initSub (vals : List Json) : SubState :=
  { pending := vals, delivered := [], closed := false }

/-- Entries of the per-request processing trace. -/
inductive TraceEntry where
  | ctxCreated
  | resolved
  | handlerRan
  | emitted
  deriving DecidableEq

/-- Modelled from the spec: the processing of one incoming request by the
server handler assembled in `server/api/trpc/[trpc].ts` from `appRouter`
and `createTRPCContext`. The context factory runs first and exactly once
for the whole request (for a subscription, once for its whole lifetime,
with one emitted trace entry per value, not one context per value); path
resolution, validation and handler execution follow. Returns the outcome,
the context passed to the handler, and the trace. -/
def handleRequest (r : RouterNode) (event : H3Event) (path : String) (input : Json) :
    RpcResult × Ctx × List TraceEntry :=
  let ctx := createTRPCContext event
  let res := dispatch r ctx path input
  let trace :=
    TraceEntry.ctxCreated ::
      (match resolvePath r path with
       | none => []
       | some _ =>
         TraceEntry.resolved ::
           (if res.2 then
              TraceEntry.handlerRan ::
                (match res.1 with
                 | RpcResult.stream vals => vals.map (fun _ => TraceEntry.emitted)
                 | _ => [])
            else []))
  (res.1, ctx, trace)

/-- Holds when a payload is an object whose `text` field is present and a
string, the condition the declared input rule of `hello` and `teststream`
checks. -/
def textFieldIsString : Json → Bool
  | Json.obj fields =>
    match lookupField fields "text" with
    | some (Json.str _) => true
    | _ => false
  | _ => false

/-- C1: calling the registered procedure `hello` with `{text: s}` returns
`{greeting: "hello " ++ s}`, for every string s and every context; in
particular with `{text: "world"}` it returns `{greeting: "hello world"}`. -/
theorem hello_returns_greeting (s : String) (ctx : Ctx) :
    dispatch appRouter ctx "hello" (Json.obj [("text", Json.str s)]) =
      (RpcResult.ok (Json.obj [("greeting", Json.str ("hello " ++ s))]), true) :=
  rfl

/-- C2: for every string s and every context, the subscription procedure
`teststream` called with `{text: s}` produces exactly the five values
`hello s 0` through `hello s 4`, in that order, after which the stream
completes. -/
theorem teststream_emits_five (s : String) (ctx : Ctx) :
    dispatch appRouter ctx "teststream" (Json.obj [("text", Json.str s)]) =
      (RpcResult.stream
        [ Json.str ("hello " ++ s ++ " 0"),
          Json.str ("hello " ++ s ++ " 1"),
          Json.str ("hello " ++ s ++ " 2"),
          Json.str ("hello " ++ s ++ " 3"),
          Json.str ("hello " ++ s ++ " 4") ], true) := by
  have h : dispatch appRouter ctx "teststream" (Json.obj [("text", Json.str s)]) =
      (RpcResult.stream
        ((List.range 5).map (fun i => Json.str ("hello " ++ s ++ " " ++ toString i))), true) :=
    rfl
  rw [h]
  simp [List.range_succ, String.append_assoc]
  exact ⟨rfl, rfl, rfl, rfl, rfl⟩

/-- C5: the client transport selection of `plugins/trpc.ts` is a function
of the operation's declared kind alone: subscriptions select the streaming
transport, queries and mutations select the batched transport, and any two
operations of the same kind select the same transport whatever their other
attributes. -/
theorem transport_selected_by_kind :
    (∀ op : Operation, op.type = OpType.subscription →
        selectTransport op = Transport.streaming) ∧
    (∀ op : Operation, op.type = OpType.query →
        selectTransport op = Transport.batched) ∧
    (∀ op : Operation, op.type = OpType.mutation →
        selectTransport op = Transport.batched) ∧
    (∀ op₁ op₂ : Operation, op₁.type = op₂.type →
        selectTransport op₁ = selectTransport op₂) := by
  refine ⟨fun op h => ?_, fun op h => ?_, fun op h => ?_, fun op₁ op₂ h => ?_⟩ <;>
    simp [selectTransport, splitLinkCondition, h]

/-- Closed instance of the C5 theorem: a concrete subscription operation
selects the streaming transport. -/
theorem transport_selected_by_kind_witness :
    selectTransport ⟨OpType.subscription, "teststream", Json.null, 7⟩ =
      Transport.streaming :=
  transport_selected_by_kind.1 ⟨OpType.subscription, "teststream", Json.null, 7⟩ rfl

/-- C10: the request context built by `createTRPCContext` has exactly the
one field `auth`, copied from the event's context auth; two events with
equal auth yield equal contexts whatever their other metadata, so handlers
observe nothing of the request beyond auth through the context. -/
theorem context_is_auth_only :
    (∀ e : H3Event, createTRPCContext e = { auth := e.contextAuth }) ∧
    (∀ e₁ e₂ : H3Event, e₁.contextAuth = e₂.contextAuth →
        createTRPCContext e₁ = createTRPCContext e₂) := by
  refine ⟨fun e => rfl, fun e₁ e₂ h => ?_⟩
  simp [createTRPCContext, h]

/-- Closed instance of the C10 theorem: two events sharing an auth value
but differing in url and headers produce equal contexts. -/
theorem context_is_auth_only_witness :
    createTRPCContext ⟨Json.str "token", "/api/trpc/hello", []⟩ =
      createTRPCContext ⟨Json.str "token", "/other", [("accept", "json")]⟩ :=
  context_is_auth_only.2
    ⟨Json.str "token", "/api/trpc/hello", []⟩
    ⟨Json.str "token", "/other", [("accept", "json")]⟩ rfl

/-- Any payload whose `text` field is not a string is rejected by the
declared input rule with a nonempty list of field issues. -/
theorem textRule_error_of_not_string (j : Json) (h : textFieldIsString j = false) :
    ∃ issues, issues ≠ [] ∧ textInputRule j = Except.error issues := by
  cases j with
  | obj fields =>
    simp only [textFieldIsString] at h
    cases hlk : lookupField fields "text" with
    | none =>
      exact ⟨[⟨["text"], "Required"⟩], by simp,
        by simp [textInputRule, zObjStringField, hlk]⟩
    | some v =>
      cases v with
      | str s => rw [hlk] at h; simp at h
      | num n =>
        exact ⟨[⟨["text"], "Expected string"⟩], by simp,
          by simp [textInputRule, zObjStringField, hlk]⟩
      | boolean b =>
        exact ⟨[⟨["text"], "Expected string"⟩], by simp,
          by simp [textInputRule, zObjStringField, hlk]⟩
      | null =>
        exact ⟨[⟨["text"], "Expected string"⟩], by simp,
          by simp [textInputRule, zObjStringField, hlk]⟩
      | obj fs =>
        exact ⟨[⟨["text"], "Expected string"⟩], by simp,
          by simp [textInputRule, zObjStringField, hlk]⟩
      | arr es =>
        exact ⟨[⟨["text"], "Expected string"⟩], by simp,
          by simp [textInputRule, zObjStringField, hlk]⟩
  | str s => exact ⟨[⟨[], "Expected object, received other"⟩], by simp, rfl⟩
  | num n => exact ⟨[⟨[], "Expected object, received other"⟩], by simp, rfl⟩
  | boolean b => exact ⟨[⟨[], "Expected object, received other"⟩], by simp, rfl⟩
  | null => exact ⟨[⟨[], "Expected object, received other"⟩], by simp, rfl⟩
  | arr es => exact ⟨[⟨[], "Expected object, received other"⟩], by simp, rfl⟩

/-- C3: for every payload whose `text` field is not a string, dispatching
either `hello` or `teststream` on it returns a VALIDATION_ERROR carrying a
nonempty list of field issues, and the handler is not invoked. -/
theorem validation_short_circuits (ctx : Ctx) (j : Json)
    (h : textFieldIsString j = false) :
    (∃ issues, issues ≠ [] ∧
        dispatch appRouter ctx "hello" j =
          (RpcResult.err (RpcError.validationError issues), false)) ∧
    (∃ issues, issues ≠ [] ∧
        dispatch appRouter ctx "teststream" j =
          (RpcResult.err (RpcError.validationError issues), false)) := by
  obtain ⟨issues, hne, herr⟩ := textRule_error_of_not_string j h
  have hres₁ : resolvePath appRouter "hello" = some helloProc := rfl
  have hres₂ : resolvePath appRouter "teststream" = some teststreamProc := rfl
  exact ⟨⟨issues, hne, by simp [dispatch, hres₁, helloProc, herr]⟩,
    ⟨issues, hne, by simp [dispatch, hres₂, teststreamProc, herr]⟩⟩

/-- Closed instance of the C3 theorem: the empty object fails validation
for `hello` and the handler does not run. -/
theorem validation_short_circuits_witness :
    ∃ issues, issues ≠ [] ∧
      dispatch appRouter ⟨Json.null⟩ "hello" (Json.obj []) =
        (RpcResult.err (RpcError.validationError issues), false) :=
  (validation_short_circuits ⟨Json.null⟩ (Json.obj []) rfl).1

/-- C4: dispatching any dotted path that does not resolve in the router
registry returns NOT_FOUND and invokes no handler; on the documented
merged router, the path `user.getById` with `{id: "123"}` resolves and
returns the user object, while the bare path `getById` does not resolve
and returns NOT_FOUND. -/
theorem not_found_paths (ctx : Ctx) :
    (∀ (r : RouterNode) (c : Ctx) (path : String) (input : Json),
        resolvePath r path = none →
          dispatch r c path input = (RpcResult.err RpcError.notFound, false)) ∧
    dispatch mergedRouter ctx "user.getById" (Json.obj [("id", Json.str "123")]) =
      (RpcResult.ok (Json.obj
        [ ("id", Json.str "123"),
          ("name", Json.str "User 123"),
          ("email", Json.str "user123@example.com") ]), true) ∧
    resolvePath mergedRouter "getById" = none ∧
    dispatch mergedRouter ctx "getById" (Json.obj [("id", Json.str "123")]) =
      (RpcResult.err RpcError.notFound, false) := by
  refine ⟨fun r c path input h => ?_, rfl, rfl, rfl⟩
  simp [dispatch, h]

/-- Closed instance of the C4 theorem: the bare path `getById` dispatched
against the application router returns NOT_FOUND without a handler. -/
theorem not_found_paths_witness :
    dispatch appRouter ⟨Json.null⟩ "getById" Json.null =
      (RpcResult.err RpcError.notFound, false) :=
  (not_found_paths ⟨Json.null⟩).1 appRouter ⟨Json.null⟩ "getById" Json.null rfl

/-- Looking up a position in a list of position-tagged results finds that
position's result, whenever the position occurs in the completion order. -/
theorem lookup_tagged {α : Type} (f : Nat → α) :
    ∀ (order : List Nat) (i : Nat), i ∈ order →
      List.lookup i (order.map (fun j => (j, f j))) = some (f i) := by
  intro order
  induction order with
  | nil => intro i h; simp at h
  | cons j rest ih =>
    intro i h
    by_cases hij : i = j
    · subst hij; simp [List.lookup]
    · have hmem : i ∈ rest := by
        rcases List.mem_cons.mp h with h1 | h2
        · exact absurd h1 hij
        · exact h2
      have hbeq : (i == j) = false := by simp [hij]
      simp [List.lookup, hbeq, ih i hmem]

/-- C6: for every completion order that is a permutation of the batch's
positions, the batch response has exactly one entry per call, positionally
aligned in input order, and each entry equals the result the same call
would have produced alone. -/
theorem batching_preserves_results (r : RouterNode) (ctx : Ctx) (calls : List Call)
    (order : List Nat) (h : order.Perm (List.range calls.length)) :
    batchDispatch r ctx calls order = calls.map (soloResult r ctx) ∧
    (batchDispatch r ctx calls order).length = calls.length := by
  have hmain : batchDispatch r ctx calls order = calls.map (soloResult r ctx) := by
    unfold batchDispatch completions
    apply List.ext_getElem
    · simp
    · intro i h1 h2
      have hi : i < calls.length := by simpa using h2
      have hmem : i ∈ order := h.mem_iff.mpr (List.mem_range.mpr hi)
      simp only [List.getElem_map, List.getElem_range]
      rw [lookup_tagged (fun j => soloResult r ctx (calls.getD j ⟨"", Json.null⟩)) order i hmem]
      simp [List.getD_eq_getElem, hi]
  exact ⟨hmain, by rw [hmain]; simp⟩

/-- Closed instance of the C6 theorem: two hello calls completing in
reversed order still produce the two solo results in input order. -/
theorem batching_preserves_results_witness :
    batchDispatch appRouter ⟨Json.null⟩
        [ ⟨"hello", Json.obj [("text", Json.str "a")]⟩,
          ⟨"hello", Json.obj [("text", Json.str "b")]⟩ ] [1, 0] =
      [ soloResult appRouter ⟨Json.null⟩ ⟨"hello", Json.obj [("text", Json.str "a")]⟩,
        soloResult appRouter ⟨Json.null⟩ ⟨"hello", Json.obj [("text", Json.str "b")]⟩ ] :=
  (batching_preserves_results appRouter ⟨Json.null⟩
    [ ⟨"hello", Json.obj [("text", Json.str "a")]⟩,
      ⟨"hello", Json.obj [("text", Json.str "b")]⟩ ] [1, 0] (by decide)).1

/-- Delivering j values from a live stream moves the first j pending
values, in order, to the delivered side. -/
theorem runSub_deliver_take :
    ∀ (j : Nat) (pending delivered : List Json), j ≤ pending.length →
      runSub ⟨pending, delivered, false⟩ (List.replicate j SubEvent.deliver) =
        ⟨pending.drop j, delivered ++ pending.take j, false⟩ := by
  intro j
  induction j with
  | zero => intro pending delivered _; simp [runSub]
  | succ n ih =>
    intro pending delivered h
    cases pending with
    | nil => simp at h
    | cons v rest =>
      have hstep : runSub ⟨v :: rest, delivered, false⟩
          (List.replicate (n + 1) SubEvent.deliver) =
          runSub ⟨rest, delivered ++ [v], false⟩ (List.replicate n SubEvent.deliver) := by
        simp [runSub, List.replicate_succ, subStep]
      rw [hstep, ih rest (delivered ++ [v]) (by simpa using h)]
      simp

/-- A closed stream with no pending values is unaffected by any further
events: nothing more is ever delivered. -/
theorem runSub_closed_fixed :
    ∀ (events : List SubEvent) (delivered : List Json),
      runSub ⟨[], delivered, true⟩ events = ⟨[], delivered, true⟩ := by
  intro events
  induction events with
  | nil => intro d; rfl
  | cons e rest ih =>
    intro d
    cases e with
    | deliver => simpa [runSub, subStep] using ih d
    | cancel => simpa [runSub, subStep] using ih d

/-- C7: if the client cancels after receiving the first j of the values a
subscription producer would emit, the stream ends with exactly those j
values delivered — no later value is ever delivered, whatever happens
after the cancellation — and the stream is closed, its producer-held
resources released. -/
theorem cancellation_stops_delivery (vals : List Json) (j : Nat) (rest : List SubEvent)
    (h : j ≤ vals.length) :
    runSub (initSub vals) (List.replicate j SubEvent.deliver ++ SubEvent.cancel :: rest) =
      ⟨[], vals.take j, true⟩ := by
  have h1 := runSub_deliver_take j vals [] h
  simp only [runSub, initSub] at h1 ⊢
  rw [List.foldl_append, h1]
  simp only [List.nil_append, List.foldl_cons, subStep]
  exact runSub_closed_fixed rest (vals.take j)

/-- Closed instance of the C7 theorem: cancelling the teststream sequence
after three deliveries, followed by a stray delivery attempt, leaves
exactly the first three values delivered and the stream closed. -/
theorem cancellation_stops_delivery_witness :
    runSub (initSub
        [ Json.str "hello x 0", Json.str "hello x 1", Json.str "hello x 2",
          Json.str "hello x 3", Json.str "hello x 4" ])
        (List.replicate 3 SubEvent.deliver ++ SubEvent.cancel :: [SubEvent.deliver]) =
      ⟨[], [Json.str "hello x 0", Json.str "hello x 1", Json.str "hello x 2"], true⟩ := by
  exact cancellation_stops_delivery
    [ Json.str "hello x 0", Json.str "hello x 1", Json.str "hello x 2",
      Json.str "hello x 3", Json.str "hello x 4" ] 3 [SubEvent.deliver] (by simp)

/-- C8: for every request, the context factory runs exactly once — the
trace holds exactly one context-creation entry, and it is the first entry,
preceding path resolution — and the context handed to the handler is built
by `createTRPCContext` from that request's own event; for a `teststream`
subscription request the trace holds five emission entries but still only
one context creation, so the factory runs once per subscription lifetime,
not once per emitted value. -/
theorem context_created_once (r : RouterNode) (e : H3Event) (path : String) (input : Json) :
    ((handleRequest r e path input).2.2).count TraceEntry.ctxCreated = 1 ∧
    ((handleRequest r e path input).2.2).head? = some TraceEntry.ctxCreated ∧
    (handleRequest r e path input).2.1 = createTRPCContext e ∧
    (∀ s : String,
      ((handleRequest appRouter e "teststream"
          (Json.obj [("text", Json.str s)])).2.2).count TraceEntry.emitted = 5 ∧
      ((handleRequest appRouter e "teststream"
          (Json.obj [("text", Json.str s)])).2.2).count TraceEntry.ctxCreated = 1) := by
  refine ⟨?_, rfl, rfl, fun s => ⟨?_, ?_⟩⟩
  · simp only [handleRequest]
    cases hres : resolvePath r path with
    | none => simp
    | some p =>
      by_cases hinv : (dispatch r (createTRPCContext e) path input).2
      · cases hr1 : (dispatch r (createTRPCContext e) path input).1 <;>
          simp [hinv, hr1, List.count_cons, List.count_eq_zero]
      · simp [hinv, List.count_cons]
  · have htr : (handleRequest appRouter e "teststream"
        (Json.obj [("text", Json.str s)])).2.2 =
        [ TraceEntry.ctxCreated, TraceEntry.resolved, TraceEntry.handlerRan,
          TraceEntry.emitted, TraceEntry.emitted, TraceEntry.emitted,
          TraceEntry.emitted, TraceEntry.emitted ] := rfl
    rw [htr]; rfl
  · have htr : (handleRequest appRouter e "teststream"
        (Json.obj [("text", Json.str s)])).2.2 =
        [ TraceEntry.ctxCreated, TraceEntry.resolved, TraceEntry.handlerRan,
          TraceEntry.emitted, TraceEntry.emitted, TraceEntry.emitted,
          TraceEntry.emitted, TraceEntry.emitted ] := rfl
    rw [htr]; rfl

/-- Left cancellation for string concatenation. -/
theorem string_append_left_cancel {a b c : String} (h : a ++ b = a ++ c) : b = c := by
  have hd : a.data ++ b.data = a.data ++ c.data := by
    simpa [String.data_append] using congrArg String.data h
  exact String.ext (List.append_cancel_left hd)

/-- Unfolding of a hello dispatch: resolution always finds the hello leaf,
so the outcome is decided by the input rule alone. -/
theorem dispatch_hello (ctx : Ctx) (j : Json) :
    dispatch appRouter ctx "hello" j =
      (match textInputRule j with
       | Except.error issues => (RpcResult.err (RpcError.validationError issues), false)
       | Except.ok parsed =>
         (RpcResult.ok (Json.obj [("greeting", Json.str ("hello " ++ textOf parsed))]),
           true)) :=
  rfl

/-- C9 counterexample: the payload `{text: "world", extra: 1}` is distinct
from `{text: "world"}`, yet it passes the input rule (unknown keys are
stripped) and `hello` returns `{greeting: "hello world"}` on it. -/
theorem hello_world_not_only_input :
    dispatch appRouter ⟨Json.null⟩ "hello"
        (Json.obj [("text", Json.str "world"), ("extra", Json.num 1)]) =
      (RpcResult.ok (Json.obj [("greeting", Json.str "hello world")]), true) ∧
    Json.obj [("text", Json.str "world"), ("extra", Json.num 1)] ≠
      Json.obj [("text", Json.str "world")] := by
  refine ⟨rfl, ?_⟩
  intro h
  injection h with h1
  simp at h1

/-- C9 amended: the hello input rule rejects every payload whose `text`
field is absent, null, or not a string, and `hello` substitutes no default:
it returns `{greeting: "hello world"}` exactly for the payloads that are
objects whose `text` field is the string `"world"` (the rule strips
unknown keys, so such payloads need not equal `{text: "world"}`). -/
theorem hello_world_exactly_for_text_world (ctx : Ctx) (j : Json) :
    (dispatch appRouter ctx "hello" j =
        (RpcResult.ok (Json.obj [("greeting", Json.str "hello world")]), true) ↔
      ∃ fields, j = Json.obj fields ∧
        lookupField fields "text" = some (Json.str "world")) ∧
    (textFieldIsString j = false →
      ∃ issues, issues ≠ [] ∧
        dispatch appRouter ctx "hello" j =
          (RpcResult.err (RpcError.validationError issues), false)) := by
  constructor
  · rw [dispatch_hello]
    cases j with
    | obj fields =>
      cases hlk : lookupField fields "text" with
      | some v =>
        cases v with
        | str s =>
          have hrule : textInputRule (Json.obj fields) =
              Except.ok (Json.obj [("text", Json.str s)]) := by
            simp [textInputRule, zObjStringField, hlk]
          have htext : textOf (Json.obj [("text", Json.str s)]) = s := rfl
          rw [hrule]
          constructor
          · intro h
            have h1 : RpcResult.ok
                (Json.obj [("greeting", Json.str ("hello " ++ s))]) =
                RpcResult.ok (Json.obj [("greeting", Json.str "hello world")]) := by
              simpa [htext] using congrArg Prod.fst h
            injection h1 with h2
            injection h2 with h3
            injection h3 with h4 h5
            injection h4 with h6 h7
            injection h7 with h8
            have hs : s = "world" := string_append_left_cancel h8
            exact ⟨fields, rfl, by rw [hlk, hs]⟩
          · rintro ⟨fields', hf, hlk'⟩
            injection hf with hf'
            rw [← hf'] at hlk'
            rw [hlk] at hlk'
            injection hlk' with hv
            injection hv with hs
            subst hs
            rfl
        | num n =>
          have hrule : textInputRule (Json.obj fields) =
              Except.error [⟨["text"], "Expected string"⟩] := by
            simp [textInputRule, zObjStringField, hlk]
          rw [hrule]
          constructor
          · intro h; simp at h
          · rintro ⟨fields', hf, hlk'⟩
            injection hf with hf'
            rw [← hf'] at hlk'
            rw [hlk] at hlk'
            injection hlk' with hv
            simp at hv
        | boolean b =>
          have hrule : textInputRule (Json.obj fields) =
              Except.error [⟨["text"], "Expected string"⟩] := by
            simp [textInputRule, zObjStringField, hlk]
          rw [hrule]
          constructor
          · intro h; simp at h
          · rintro ⟨fields', hf, hlk'⟩
            injection hf with hf'
            rw [← hf'] at hlk'
            rw [hlk] at hlk'
            injection hlk' with hv
            simp at hv
        | null =>
          have hrule : textInputRule (Json.obj fields) =
              Except.error [⟨["text"], "Expected string"⟩] := by
            simp [textInputRule, zObjStringField, hlk]
          rw [hrule]
          constructor
          · intro h; simp at h
          · rintro ⟨fields', hf, hlk'⟩
            injection hf with hf'
            rw [← hf'] at hlk'
            rw [hlk] at hlk'
            injection hlk' with hv
            simp at hv
        | obj fs =>
          have hrule : textInputRule (Json.obj fields) =
              Except.error [⟨["text"], "Expected string"⟩] := by
            simp [textInputRule, zObjStringField, hlk]
          rw [hrule]
          constructor
          · intro h; simp at h
          · rintro ⟨fields', hf, hlk'⟩
            injection hf with hf'
            rw [← hf'] at hlk'
            rw [hlk] at hlk'
            injection hlk' with hv
            simp at hv
        | arr es =>
          have hrule : textInputRule (Json.obj fields) =
              Except.error [⟨["text"], "Expected string"⟩] := by
            simp [textInputRule, zObjStringField, hlk]
          rw [hrule]
          constructor
          · intro h; simp at h
          · rintro ⟨fields', hf, hlk'⟩
            injection hf with hf'
            rw [← hf'] at hlk'
            rw [hlk] at hlk'
            injection hlk' with hv
            simp at hv
      | none =>
        have hrule : textInputRule (Json.obj fields) =
            Except.error [⟨["text"], "Required"⟩] := by
          simp [textInputRule, zObjStringField, hlk]
        rw [hrule]
        constructor
        · intro h; simp at h
        · rintro ⟨fields', hf, hlk'⟩
          injection hf with hf'
          rw [← hf'] at hlk'
          rw [hlk] at hlk'
          simp at hlk'
    | str s =>
      have hrule : textInputRule (Json.str s) =
          Except.error [⟨[], "Expected object, received other"⟩] := rfl
      rw [hrule]
      constructor
      · intro h; simp at h
      · rintro ⟨fields', hf, _⟩; simp at hf
    | num n =>
      have hrule : textInputRule (Json.num n) =
          Except.error [⟨[], "Expected object, received other"⟩] := rfl
      rw [hrule]
      constructor
      · intro h; simp at h
      · rintro ⟨fields', hf, _⟩; simp at hf
    | boolean b =>
      have hrule : textInputRule (Json.boolean b) =
          Except.error [⟨[], "Expected object, received other"⟩] := rfl
      rw [hrule]
      constructor
      · intro h; simp at h
      · rintro ⟨fields', hf, _⟩; simp at hf
    | null =>
      have hrule : textInputRule Json.null =
          Except.error [⟨[], "Expected object, received other"⟩] := rfl
      rw [hrule]
      constructor
      · intro h; simp at h
      · rintro ⟨fields', hf, _⟩; simp at hf
    | arr es =>
      have hrule : textInputRule (Json.arr es) =
          Except.error [⟨[], "Expected object, received other"⟩] := rfl
      rw [hrule]
      constructor
      · intro h; simp at h
      · rintro ⟨fields', hf, _⟩; simp at hf
  · intro h
    obtain ⟨issues, hne, herr⟩ := textRule_error_of_not_string j h
    refine ⟨issues, hne, ?_⟩
    rw [dispatch_hello, herr]

/-- Closed instance of the C9 amended theorem: the null payload is rejected
by validation with field detail and the handler does not run. -/
theorem hello_world_exactly_for_text_world_witness :
    ∃ issues, issues ≠ [] ∧
      dispatch appRouter ⟨Json.null⟩ "hello" Json.null =
        (RpcResult.err (RpcError.validationError issues), false) :=
  (hello_world_exactly_for_text_world ⟨Json.null⟩ Json.null).2 rfl
